import Mathlib

/-!
Verification of the download-orchestration core of the `mediadownload`
repository (an Express/TypeScript media downloader driving `yt-dlp`).

The development shallowly embeds the relevant parts of the source:

* `src/shared/schema.ts` — the `downloads` record shape and the update schema
  (which omits `id`, `url`, `createdAt`);
* `src/server/index.ts` (`MemStorage`) — the in-memory job record store;
* `src/server/routes.ts` — platform detection, direct-image handling, the
  Instagram rate-limit queue, yt-dlp argument construction, executable path
  probing, stderr classification, and artifact discovery.

JavaScript strings are modelled as Lean `String`; `s.includes(p)`,
`s.startsWith(p)`, `s.endsWith(p)` are modelled on the underlying character
lists.  JavaScript object spread `{ ...existing, ...updates }` is modelled by
patches whose fields are `Option`-wrapped: `none` means the property is absent
from the patch, `some v` means it is present (and a present property whose
value is `undefined` is `some none`, which overwrites the field with null —
exactly what the spread does for `errorMessage: undefined`).
Wall-clock times (`Date.now()`) are naturals in milliseconds.
-/

namespace MediaDL

/-- JS `s.startsWith(p)` on the character list of `s`. -/
def strStartsWith (s p : String) : Bool := p.data.isPrefixOf s.data

/-- JS `s.endsWith(p)` on the character list of `s`. -/
def strEndsWith (s p : String) : Bool := p.data.isSuffixOf s.data

/-- JS `s.includes(p)` (substring containment) on the character list of `s`. -/
def strContains (s p : String) : Bool := decide (p.data <:+: s.data)

theorem strStartsWith_iff {s p : String} : strStartsWith s p = true ↔ p.data <+: s.data := by
  simp [strStartsWith]

theorem strEndsWith_iff {s p : String} : strEndsWith s p = true ↔ p.data <:+ s.data := by
  simp [strEndsWith]

theorem strContains_iff {s p : String} : strContains s p = true ↔ p.data <:+: s.data := by
  simp [strContains]

theorem String.ne_empty_iff_data {s : String} : s ≠ "" ↔ s.data ≠ [] := by
  constructor
  · intro h hdata
    exact h (by cases s; simp_all)
  · intro h hs
    exact h (by simp [hs])

theorem String.append_ne_empty_left {a b : String} (h : a ≠ "") : a ++ b ≠ "" := by
  rw [String.ne_empty_iff_data] at h ⊢
  intro hab
  apply h
  have : (a ++ b).data = a.data ++ b.data := String.data_append a b
  rw [hab] at this
  exact (List.append_eq_nil.mp this.symm).1

/-- Opaque model of the `metadata` jsonb column: either a parsed `info.json`
blob, or the object `handleDirectImageDownload` builds for direct images. -/
inductive MetaVal
  | parsedInfo (raw : String)
  | directImageMeta (originalUrl : String) (contentType : String)
  deriving DecidableEq, Repr

/-- The `downloads` record (`src/shared/schema.ts`, `downloads` table /
`Download` type).  Nullable columns are `Option`s; `createdAt` is a
millisecond timestamp. -/
structure Download where
  id : Nat
  url : String
  title : Option String
  platform : String
  format : String
  quality : Option String
  filename : Option String
  fileSize : Option Nat
  status : String
  downloadUrl : Option String
  metadata : Option MetaVal
  errorMessage : Option String
  createdAt : Nat
  deriving DecidableEq, Repr

/-- The `UpdateDownload` patch type (`updateDownloadSchema`): every field of
the record except `id`, `url`, `createdAt` (those are omitted by the schema),
all optional.  The outer `Option` is property presence in the patch object;
for nullable columns the inner `Option` is the written value (`some none`
models a property explicitly present with value `undefined`, which the spread
`{ ...existing, ...updates }` copies over the stored value). -/
structure UpdateDownload where
  status : Option String := none
  title : Option (Option String) := none
  platform : Option String := none
  format : Option String := none
  quality : Option (Option String) := none
  filename : Option (Option String) := none
  fileSize : Option (Option Nat) := none
  downloadUrl : Option (Option String) := none
  metadata : Option (Option MetaVal) := none
  errorMessage : Option (Option String) := none
  deriving DecidableEq, Repr

/-- `MemStorage.updateDownload`'s merge `{ ...existing, ...updates }`
(`src/server/index.ts`).  `id`, `url`, `createdAt` cannot appear in the patch
(the update schema omits them), so they are always carried over. -/
def applyUpdate (d : Download) (u : UpdateDownload) : Download where
  id := d.id
  url := d.url
  title := u.title.getD d.title
  platform := u.platform.getD d.platform
  format := u.format.getD d.format
  quality := u.quality.getD d.quality
  filename := u.filename.getD d.filename
  fileSize := u.fileSize.getD d.fileSize
  status := u.status.getD d.status
  downloadUrl := u.downloadUrl.getD d.downloadUrl
  metadata := u.metadata.getD d.metadata
  errorMessage := u.errorMessage.getD d.errorMessage
  createdAt := d.createdAt

/-- The in-memory store of `MemStorage` (a `Map<number, Download>`). -/
def Store := Nat → Option Download

/-- `MemStorage.updateDownload` (`src/server/index.ts` lines 171–187): look
the id up; if absent, warn and return `undefined` without touching the map;
otherwise merge the patch, write back, and return the merged record. -/
def memUpdateDownload (store : Store) (id : Nat) (updates : UpdateDownload) :
    Store × Option Download :=
  match store id with
  | none => (store, none)
  | some existing =>
      let updated := applyUpdate existing updates
      (fun k => if k = id then some updated else store k, some updated)

/-- Domain → platform table of `detectPlatform` (`src/server/routes.ts`),
in source order (`Object.entries` preserves insertion order). -/
def platformMap : List (String × String) :=
  [("youtube.com", "YouTube"), ("youtu.be", "YouTube"),
   ("instagram.com", "Instagram"), ("tiktok.com", "TikTok"),
   ("twitter.com", "Twitter"), ("x.com", "Twitter"),
   ("facebook.com", "Facebook"), ("vimeo.com", "Vimeo"),
   ("twitch.tv", "Twitch"), ("dailymotion.com", "Dailymotion"),
   ("soundcloud.com", "SoundCloud"), ("reddit.com", "Reddit")]

/-- Image extensions of the regex `\.(jpg|jpeg|png|gif|webp|bmp|svg)(\?.*)?$`
used by `isDirectImageUrl` and `detectPlatform`. -/
def imageExtensionList : List String :=
  ["jpg", "jpeg", "png", "gif", "webp", "bmp", "svg"]

/-- Whether a character list ends in `.ext` for one of the image extensions
(the `\.(jpg|...)` part of the regex, anchored on the right). -/
def endsWithImageExt (cs : List Char) : Bool :=
  imageExtensionList.any fun e => ("." ++ e).data.isSuffixOf cs

/-- All proper segments of `cs` standing before some occurrence of `?`: the
candidate left parts of the `(\?.*)?` alternative of the regex.  (`.*` is
modelled as matching any characters.) -/
def beforeQueryParts : List Char → List (List Char)
  | [] => []
  | c :: cs =>
      (if c = '?' then [([] : List Char)] else []) ++
        (beforeQueryParts cs).map (fun l => c :: l)

/-- `isDirectImageUrl` (`src/server/routes.ts` lines 307–315): tests the whole
URL string, case-insensitively (modelled by lowercasing the characters),
against `\.(jpg|jpeg|png|gif|webp|bmp|svg)(\?.*)?$` — the URL either ends
with a dot plus image extension, or has such an ending immediately before a
`?`. -/
def isDirectImageUrl (url : String) : Bool :=
  let l := url.data.map Char.toLower
  endsWithImageExt l || (beforeQueryParts l).any endsWithImageExt

/-- `detectPlatform` (`src/server/routes.ts` lines 195–232).  The hostname of
`new URL(url)` is supplied by the caller (`none` models a URL the parser
rejects, which the `catch` turns into "Unknown"); the table is scanned in
order with `domain.includes(domainKey)`, then the direct-image regex is tried
on the full URL. -/
def detectPlatform (hostname : Option String) (url : String) : String :=
  match hostname with
  | none => "Unknown"
  | some h =>
      match platformMap.find? (fun p => decide (p.1.data <:+: h.data.map Char.toLower)) with
      | some p => p.2
      | none => if isDirectImageUrl url then "Direct Image" else "Unknown"

/-- Which branch `processMedia` (`src/server/routes.ts` lines 609–633) takes:
direct image URLs are handled by plain HTTP download, Instagram URLs go to the
serialized queue, everything else is dispatched to yt-dlp immediately.  The
direct-image test comes first, so it wins even on `instagram.com` hosts. -/
inductive MediaRoute
  | directImage
  | instagramQueue
  | ytDlpDirect
  deriving DecidableEq, Repr

/-- The dispatch order of `processMedia`: `isDirectImageUrl` first, then the
Instagram check on the detected platform. -/
def routeFor (hostname : Option String) (url : String) : MediaRoute :=
  if isDirectImageUrl url then .directImage
  else if detectPlatform hostname url = "Instagram" then .instagramQueue
  else .ytDlpDirect

/-- Content-type → extension table of `handleDirectImageDownload`
(`src/server/routes.ts` lines 347–355), in source order. -/
def extensionMap : List (String × String) :=
  [("image/jpeg", "jpg"), ("image/jpg", "jpg"), ("image/png", "png"),
   ("image/gif", "gif"), ("image/webp", "webp"), ("image/svg+xml", "svg"),
   ("image/bmp", "bmp")]

/-- Extension selection of `handleDirectImageDownload`: first table entry
whose mime type the content type includes, defaulting to `jpg`. -/
def imageExtFor (contentType : String) : String :=
  (((extensionMap.find? fun p => strContains contentType p.1).map Prod.snd).getD "jpg")

/-- Result of the `fetch` + file write in `handleDirectImageDownload`:
either the response was ok and `bytes` bytes were saved, or `response.ok` was
false (which throws `HTTP <status>: <statusText>`), or some step threw
(`some m` an `Error` with message `m`, `none` a non-`Error` value). -/
inductive FetchOutcome
  | ok (contentType : String) (bytes : Nat)
  | httpError (statusCode : Nat) (statusText : String)
  | thrown (emsg : Option String)
  deriving DecidableEq, Repr

/-- A generic `status: "failed"` record update: every failure path of the
orchestration core writes exactly the `status` and `errorMessage` fields. -/
def failedPatch (m : String) : UpdateDownload :=
  { status := some "failed", errorMessage := some (some m) }

/-- The `status: "completed"` record update shared by `processMedia`,
`processInstagramMedia` and `handleDirectImageDownload`: status, title,
filename, fileSize, metadata and the `/api/download/<id>` URL. -/
def completedPatch (downloadId : Nat) (title fname : String) (size : Nat)
    (meta : MetaVal) : UpdateDownload :=
  { status := some "completed", title := some (some title),
    filename := some (some fname), fileSize := some (some size),
    metadata := some (some meta),
    downloadUrl := some (some ("/api/download/" ++ toString downloadId)) }

/-- The single record update `handleDirectImageDownload`
(`src/server/routes.ts` lines 325–396) performs: on success a completed patch
whose filename is `<token>_DirectImage-image.<ext>` and whose size is the
downloaded byte count; on any throw (non-ok response, network or write error)
a failed patch carrying the error message (`error.message` when an `Error`
was thrown, else "Failed to download image"). -/
def directImageUpdate (downloadId : Nat) (url fname : String)
    (res : FetchOutcome) : UpdateDownload :=
  match res with
  | .ok contentType bytes =>
      { status := some "completed",
        title := some (some "Direct Image Download"),
        filename := some (some (fname ++ "_DirectImage-image." ++ imageExtFor contentType)),
        fileSize := some (some bytes),
        metadata := some (some (MetaVal.directImageMeta url contentType)),
        downloadUrl := some (some ("/api/download/" ++ toString downloadId)) }
  | .httpError statusCode statusText =>
      failedPatch ("HTTP " ++ toString statusCode ++ ": " ++ statusText)
  | .thrown emsg => failedPatch (emsg.getD "Failed to download image")

/-- The `minDelay` of the Instagram queue: 60 000 ms. -/
def igMinDelay : Nat := 60000

/-- The fixed delay between queue items: 1 000 ms. -/
def igInterItemDelay : Nat := 1000

/-- Advisory message written while an Instagram job waits out the rate-limit
window (`src/server/routes.ts` line 425), parameterized by the displayed
number of seconds. -/
def igWaitingMsg (secs : Nat) : String :=
  "Waiting " ++ toString secs ++ " seconds to avoid Instagram rate limiting..."

/-- Queue update showing the advisory waiting message (status stays
`processing`). -/
def igWaitingPatch (secs : Nat) : UpdateDownload :=
  { status := some "processing", errorMessage := some (some (igWaitingMsg secs)) }

/-- Queue update clearing the advisory message before release
(`errorMessage: undefined` — the property is present with value undefined, so
the spread nulls the stored message). -/
def igClearPatch : UpdateDownload :=
  { status := some "processing", errorMessage := some none }

/-- One dispatch performed by the Instagram queue worker: which job was
released, at what time, whether it had to wait, and the record updates the
worker issued for it before releasing it. -/
structure DispatchRecord where
  item : Nat
  time : Nat
  waited : Bool
  updates : List UpdateDownload
  deriving DecidableEq, Repr

/-- The drain loop of `processInstagramQueue` (`src/server/routes.ts` lines
410–443).  `lastT` is `lastInstagramRequestTime`, `now` the current clock;
`drifts` supplies the nonnegative real-time elapsed before each iteration
reads the clock (scheduling jitter).  Each iteration: if less than `minDelay`
has passed since the last dispatch and a dispatch has ever happened
(`lastInstagramRequestTime > 0`), write the advisory waiting patch and sleep
the difference; then write the clearing patch, record the dispatch time,
release the job, and sleep the 1-second inter-item delay. -/
def runQueue : List Nat → Nat → Nat → List Nat → List DispatchRecord
  | [], _, _, _ => []
  | id :: rest, lastT, now, drifts =>
      let arrive := now + drifts.headD 0
      let since := arrive - lastT
      if since < igMinDelay ∧ 0 < lastT then
        let wait := igMinDelay - since
        let dispatchT := arrive + wait
        { item := id, time := dispatchT, waited := true,
          updates := [igWaitingPatch ((wait + 999) / 1000), igClearPatch] } ::
          runQueue rest dispatchT (dispatchT + igInterItemDelay) drifts.tail
      else
        { item := id, time := arrive, waited := false,
          updates := [igClearPatch] } ::
          runQueue rest arrive (arrive + igInterItemDelay) drifts.tail

/-- The entry guard of `processInstagramQueue` (`src/server/routes.ts` lines
404–408): if a worker is already draining the queue, or the queue is empty,
the call returns immediately and performs no dispatches; otherwise the single
worker drains the whole queue. -/
def processInstagramQueueEntry (isProcessing : Bool) (queue : List Nat)
    (lastT now : Nat) (drifts : List Nat) : List DispatchRecord :=
  if isProcessing || queue.isEmpty then [] else runQueue queue lastT now drifts

/-- The yt-dlp argument list built by `processInstagramMedia`
(`src/server/routes.ts` lines 463–506): fixed minimal options, then
`--cookies <path>` when `cookies.txt` exists on disk at planning time and
`--cookies-from-browser chrome` otherwise, then user agent, headers, sleep
settings, the format selection, and finally the URL. -/
def instagramArgs (cookiesExist : Bool) (format : String)
    (outputPath cookiesPath url : String) : List String :=
  ["--no-playlist", "--write-info-json", "--quiet", "--no-warnings",
   "--retries", "1", "--socket-timeout", "60", "--no-call-home",
   "--no-check-certificate", "-o", outputPath]
  ++ (if cookiesExist then ["--cookies", cookiesPath]
      else ["--cookies-from-browser", "chrome"])
  ++ ["--user-agent",
      "Mozilla/5.0 (iPhone; CPU iPhone OS 16_6 like Mac OS X) AppleWebKit/605.1.15 (KHTML, like Gecko) Version/16.6 Mobile/15E148 Safari/604.1"]
  ++ ["--add-header",
      "Accept:text/html,application/xhtml+xml,application/xml;q=0.9,*/*;q=0.8",
      "--add-header", "Accept-Language:en-US,en;q=0.5"]
  ++ ["--sleep-interval", "30", "--max-sleep-interval", "60"]
  ++ (if format = "video" then ["--format", "best[ext=mp4]/best"]
      else if format = "audio" then ["--extract-audio", "--audio-format", "mp3"]
      else ["--format", "best"])
  ++ [url]

/-- The candidate yt-dlp locations probed by `processMedia`
(`src/server/routes.ts` lines 738–743), in order. -/
def possiblePaths : List String :=
  ["/home/runner/workspace/.pythonlibs/bin/yt-dlp",
   "/usr/local/bin/yt-dlp", "/usr/bin/yt-dlp", "yt-dlp"]

/-- Executable resolution of `processMedia` (`src/server/routes.ts` lines
736–755): starting from the default `"yt-dlp"`, take the first candidate that
is the bare name (resolved from `PATH`) or exists on disk. -/
def resolveYtDlpPath (pathExists : String → Bool) : String :=
  ((possiblePaths.find? fun p => p == "yt-dlp" || pathExists p).getD "yt-dlp")

/-- The executable used by `processInstagramMedia` (`src/server/routes.ts`
line 509): a single hardcoded path, with no probing and no `PATH` fallback. -/
def igYtDlpPath : String := "/home/runner/workspace/.pythonlibs/bin/yt-dlp"

/-- Stderr classification of `processMedia`'s close handler
(`src/server/routes.ts` lines 779–814), applied before the exit code is
consulted: rate limiting, authentication, forbidden, and not-found patterns,
first matching category wins; `none` means no pattern matched. -/
def stderrClassify (platformName stderr : String) : Option UpdateDownload :=
  if strContains stderr "HTTP Error 429" || strContains stderr "Too Many Requests" ||
      strContains stderr "rate limit" then
    some (failedPatch ("Rate limited by " ++ platformName ++
      ". Please wait a few minutes before trying again."))
  else if strContains stderr "Sign in to confirm" || strContains stderr "Sign in to continue" ||
      strContains stderr "login_required" || strContains stderr "Private video" ||
      strContains stderr "cookies-from-browser" || strContains stderr "authentication" ||
      strContains stderr "This video is unavailable" || strContains stderr "Video unavailable" ||
      strContains stderr "Sign in to confirm you're not a bot" then
    some (failedPatch (platformName ++
      " requires authentication. Please sign in to the platform in your browser and try again, or contact support for help with authentication setup."))
  else if strContains stderr "HTTP Error 403" || strContains stderr "Forbidden" then
    some (failedPatch ("Access forbidden by " ++ platformName ++
      ". This content may be region-blocked, private, or require special permissions. Try using authentication cookies."))
  else if strContains stderr "HTTP Error 404" || strContains stderr "Not Found" then
    some (failedPatch
      "Content not found. The video may have been deleted, made private, or the URL is incorrect.")
  else none

/-- JS rendering of the close code in the template
`Download failed with exit code <code>` (a process killed before exiting
closes with `null`). -/
def exitCodeStr : Option Int → String
  | none => "null"
  | some n => toString n

/-- The non-zero-exit error message of `processMedia` (`src/server/routes.ts`
lines 927–937): `stderr || "Download failed with exit code <code>"`, replaced
by a friendlier message when stderr matches one of three substring groups. -/
def nonzeroErrorMessage (stderr : String) (code : Option Int) : String :=
  let base := if stderr = "" then "Download failed with exit code " ++ exitCodeStr code
    else stderr
  if strContains stderr "login required" || strContains stderr "rate-limit reached" ||
      strContains stderr "authentication" then
    "This Instagram content requires authentication or you've hit rate limits. Instagram blocks automated downloads for most content. Try using a public post or wait before trying again."
  else if strContains stderr "404: Not Found" then
    "Content not found. The URL may be invalid, private, or the content may have been removed."
  else if strContains stderr "unable to extract" ||
      strContains stderr "General metadata extraction failed" then
    "Unable to extract content from this URL. The platform may have updated their protection or the content may be restricted."
  else base

/-- The recency-layer exclusions of the artifact search
(`src/server/routes.ts` lines 838–843): sidecar metadata, placeholder test
files, incomplete downloads, temp files. -/
def excludedForRecency (f : String) : Bool :=
  strEndsWith f ".info.json" || strStartsWith f "test." ||
    strEndsWith f ".part" || strEndsWith f ".tmp"

/-- Layer 1 of the artifact search (`src/server/routes.ts` lines 827–829):
first file whose name starts with the job token, excluding `.info.json`
sidecars and `.part` markers. -/
def tokenCandidate (files : List String) (token : String) : Option String :=
  files.find? fun f =>
    strStartsWith f token && !(strEndsWith f ".info.json") && !(strEndsWith f ".part")

/-- Layer 2 of the artifact search (`src/server/routes.ts` lines 832–868):
files not excluded and modified within the last 5 minutes (300 000 ms),
sorted by modification time descending (`statB.mtime - statA.mtime`, a stable
sort as in JS). -/
def recentCandidates (files : List String) (now : Nat) (mtime : String → Nat) :
    List String :=
  ((files.filter fun f => !(excludedForRecency f) && now - mtime f < 300000).mergeSort
    fun a b => mtime b ≤ mtime a)

/-- The layered artifact locator of `processMedia` (`src/server/routes.ts`
lines 816–876): token-prefix match, then most recent file, then any filename
containing the token. -/
def locate (files : List String) (token : String) (now : Nat)
    (mtime : String → Nat) : Option String :=
  match tokenCandidate files token with
  | some f => some f
  | none =>
      match (recentCandidates files now mtime).head? with
      | some f => some f
      | none => files.find? fun f => strContains f token

/-- The single record update issued by `processMedia`'s yt-dlp close handler
(`src/server/routes.ts` lines 774–944).  Inputs: detected platform name,
captured stderr, close code (`none` = null), the output directory listing,
the job's unique token, the clock and per-file mtimes for the recency layer,
the file sizes, the parsed `info.json` title when present, the stored
metadata value, and `fsErr` (`some e` models the inner `try` around the file
processing throwing, with `some (some m)` an `Error` carrying message `m`).
Classification of stderr comes first, then the exit code; on a clean exit the
artifact locator runs and a missing artifact fails the job. -/
def ytDlpCloseUpdate (platformName stderr : String) (code : Option Int)
    (files : List String) (token : String) (now : Nat) (mtime : String → Nat)
    (fsize : String → Nat) (infoTitle : Option String) (meta : MetaVal)
    (fsErr : Option (Option String)) (downloadId : Nat) : UpdateDownload :=
  match stderrClassify platformName stderr with
  | some u => u
  | none =>
      if code = some 0 then
        match fsErr with
        | some e =>
            failedPatch ("Processing error: " ++ (e.getD "Unknown error"))
        | none =>
            match locate files token now mtime with
            | some f =>
                completedPatch downloadId
                  (infoTitle.getD ("Downloaded from " ++ platformName)) f (fsize f) meta
            | none => failedPatch "Download completed but no file was found"
      else failedPatch (nonzeroErrorMessage stderr code)

/-- The single record update issued by `processInstagramMedia`'s close
handler (`src/server/routes.ts` lines 525–598).  The Instagram-specific
rate-limit/login patterns are checked before the exit code; a clean exit uses
only the token-prefix layer of the artifact search. -/
def igCloseUpdate (stderr : String) (code : Option Int) (files : List String)
    (token : String) (fsize : String → Nat) (infoTitle : Option String)
    (meta : MetaVal) (fsErr : Option (Option String)) (downloadId : Nat) :
    UpdateDownload :=
  if strContains stderr "HTTP Error 429" || strContains stderr "Too Many Requests" ||
      strContains stderr "rate-limit reached" || strContains stderr "login required" then
    failedPatch
      "Instagram rate limiting detected. The system will automatically wait 60 seconds between Instagram requests to avoid this. Try again in a few minutes."
  else if code = some 0 then
    match fsErr with
    | some _ => failedPatch "Error processing downloaded file"
    | none =>
        match tokenCandidate files token with
        | some f =>
            completedPatch downloadId (infoTitle.getD "Instagram Media") f (fsize f) meta
        | none => failedPatch "Downloaded file not found"
  else
    failedPatch
      "Instagram download failed. Instagram frequently blocks automated downloads. Try again later or provide authentication cookies."

/-- The record update of the `catch` wrapping `processInstagramMedia`
(`src/server/routes.ts` lines 600–606). -/
def igCatchPatch : UpdateDownload :=
  failedPatch "Instagram processing failed due to platform restrictions."

/-- The record update of `processMedia`'s spawn-error handler
(`src/server/routes.ts` lines 946–952). -/
def pmSpawnErrorPatch (emsg : String) : UpdateDownload :=
  failedPatch ("Failed to start download process: " ++ emsg)

/-- The record update of the `catch` wrapping `processMedia`
(`src/server/routes.ts` lines 954–960); `some m` models a thrown `Error`
with message `m`, `none` a non-`Error` value. -/
def pmCatchPatch (emsg : Option String) : UpdateDownload :=
  failedPatch (emsg.getD "Unknown error")

/-- The two queue updates a dequeued Instagram job receives before release:
the advisory waiting message (only when the worker had to wait, `k` being the
displayed seconds) followed by the unconditional clearing update. -/
def igQueueUpdates : Option Nat → List UpdateDownload
  | some k => [igWaitingPatch k, igClearPatch]
  | none => [igClearPatch]

/-- The per-job sequences of record updates that the orchestration core can
issue for one job, one constructor per code path of `src/server/routes.ts`:
the direct-image handler, the Instagram queue prefix followed by either the
Instagram close handler or the Instagram `catch`, the generic yt-dlp close
handler, the generic spawn-error handler, and the generic `catch`. -/
inductive JobTrace : List UpdateDownload → Prop
  | direct (downloadId : Nat) (url fname : String) (res : FetchOutcome) :
      JobTrace [directImageUpdate downloadId url fname res]
  | instaClose (k : Option Nat) (stderr : String) (code : Option Int)
      (files : List String) (token : String) (fsize : String → Nat)
      (infoTitle : Option String) (meta : MetaVal) (fsErr : Option (Option String))
      (downloadId : Nat) :
      JobTrace (igQueueUpdates k ++
        [igCloseUpdate stderr code files token fsize infoTitle meta fsErr downloadId])
  | instaCatch (k : Option Nat) :
      JobTrace (igQueueUpdates k ++ [igCatchPatch])
  | ytClose (platformName stderr : String) (code : Option Int)
      (files : List String) (token : String) (now : Nat) (mtime : String → Nat)
      (fsize : String → Nat) (infoTitle : Option String) (meta : MetaVal)
      (fsErr : Option (Option String)) (downloadId : Nat) :
      JobTrace [ytDlpCloseUpdate platformName stderr code files token now mtime
        fsize infoTitle meta fsErr downloadId]
  | ytSpawnError (emsg : String) : JobTrace [pmSpawnErrorPatch emsg]
  | ytCatch (emsg : Option String) : JobTrace [pmCatchPatch emsg]

/-- The Error Classifier outcome (spec §4.6): either proceed to artifact
location, or fail the job with a specific record update.  `classifyOutcome`
is the branch order of `processMedia`'s close handler: stderr patterns first,
exit code second. -/
inductive Outcome
  | success
  | failure (u : UpdateDownload)
  deriving DecidableEq, Repr

/-- Classification performed by `processMedia`'s close handler, as a
function of the captured stderr and the close code: the stderr substring
patterns are consulted before the exit code. -/
def classifyOutcome (platformName stderr : String) (code : Option Int) : Outcome :=
  match stderrClassify platformName stderr with
  | some u => .failure u
  | none =>
      if code = some 0 then .success
      else .failure (failedPatch (nonzeroErrorMessage stderr code))

/-- Once a status sequence reaches a terminal value, every later entry is
that same value. -/
def TermStable (l : List String) : Prop :=
  ∀ i j : Nat, ∀ hi : i < l.length, ∀ hj : j < l.length, i ≤ j →
    (l[i] = "completed" ∨ l[i] = "failed") → l[j] = l[i]

/-- The record state the orchestration core creates a job in and the queue
prefix preserves: in flight, with no artifact fields and no error message. -/
def InitJobState (d : Download) : Prop :=
  d.status = "processing" ∧ d.filename = none ∧ d.downloadUrl = none ∧
    d.errorMessage = none

/-- The transient waiting sub-state of a queued Instagram job: status still
`processing`, with the advisory waiting message as its error message. -/
def isWaitingState (d : Download) : Prop :=
  d.status = "processing" ∧ ∃ k, d.errorMessage = some (igWaitingMsg k)

/-- The field-consistency invariant of the job record: artifact fields are
set (and non-empty) exactly on completion, and an error message is present
exactly for failed jobs or the advisory waiting sub-state. -/
def fieldInv (d : Download) : Prop :=
  ((d.status = "completed") ↔ d.filename ≠ none) ∧
    ((d.status = "completed") ↔ d.downloadUrl ≠ none) ∧
    (∀ f, d.filename = some f → f ≠ "") ∧
    (∀ u, d.downloadUrl = some u → u ≠ "") ∧
    (d.status = "failed" → ∃ m, d.errorMessage = some m ∧ m ≠ "") ∧
    (d.errorMessage ≠ none → d.status = "failed" ∨ isWaitingState d)

/-- Non-degeneracy of a fetch outcome: a thrown `Error` carries a non-empty
message (`fetch` and `fs` errors do in practice; the code copies the message
verbatim). -/
def FetchWf : FetchOutcome → Prop
  | .thrown (some m) => m ≠ ""
  | _ => True

/-- A terminal update in one of the two shapes every terminal write of the
core has: a failure with a non-empty message, or a completion with a
non-empty filename. -/
def GoodFinal (p : UpdateDownload) : Prop :=
  (∃ m, p = failedPatch m ∧ m ≠ "") ∨
    (∃ id0 t f sz mv, p = completedPatch id0 t f sz mv ∧ f ≠ "")

/-- `createDownload` of `MemStorage` (`src/server/index.ts` lines 133–154)
as called with an insert payload: unset optional fields become null, status
defaults to `pending` when absent. -/
def createDownload (id : Nat) (url : String) (title : Option String)
    (platform format : String) (quality : Option String) (status : Option String)
    (nowT : Nat) : Download where
  id := id
  url := url
  title := title
  platform := platform
  format := format
  quality := quality
  filename := none
  fileSize := none
  status := status.getD "pending"
  downloadUrl := none
  metadata := none
  errorMessage := none
  createdAt := nowT

end MediaDL

namespace MediaDL

/-- C9: for an id not present in the store, `updateDownload` returns
`undefined` and leaves the map untouched (a silent no-op, total — the code
only logs a warning and returns). -/
theorem C9_update_absent_id_noop (store : Store) (id : Nat)
    (patch : UpdateDownload) (h : store id = none) :
    memUpdateDownload store id patch = (store, none) := by
  simp [memUpdateDownload, h]

theorem C9_update_absent_id_noop_witness :
    ((fun _ => none : Store) 5 = none) ∧
      memUpdateDownload (fun _ => none) 5 {} = ((fun _ => none : Store), none) :=
  ⟨rfl, C9_update_absent_id_noop (fun _ => none) 5 {} rfl⟩

/-- C6: the Instagram invocation plan contains `--cookies <path>` exactly
when the credential file exists at planning time, and the
`--cookies-from-browser` fallback exactly when it does not. -/
theorem C6_instagram_cookie_selection (format outputPath cookiesPath url : String)
    (hu1 : "--cookies" ≠ url) (hu2 : "--cookies-from-browser" ≠ url)
    (ho1 : "--cookies" ≠ outputPath) (ho2 : "--cookies-from-browser" ≠ outputPath)
    (hc : "--cookies-from-browser" ≠ cookiesPath) :
    ((instagramArgs true format outputPath cookiesPath url)[12]? = some "--cookies" ∧
      (instagramArgs true format outputPath cookiesPath url)[13]? = some cookiesPath ∧
      "--cookies-from-browser" ∉ instagramArgs true format outputPath cookiesPath url) ∧
    ("--cookies-from-browser" ∈ instagramArgs false format outputPath cookiesPath url ∧
      "--cookies" ∉ instagramArgs false format outputPath cookiesPath url) := by
  refine ⟨⟨rfl, rfl, ?_⟩, ⟨?_, ?_⟩⟩ <;>
    by_cases h1 : format = "video" <;> by_cases h2 : format = "audio" <;>
      simp [instagramArgs, h1, h2, hu1, hu2, ho1, ho2, hc]

theorem C6_instagram_cookie_selection_witness :
    (((instagramArgs true "video" "/downloads/out" "/cwd/cookies.txt"
        "https://www.instagram.com/p/x/")[12]? = some "--cookies" ∧
      (instagramArgs true "video" "/downloads/out" "/cwd/cookies.txt"
        "https://www.instagram.com/p/x/")[13]? = some "/cwd/cookies.txt" ∧
      "--cookies-from-browser" ∉ instagramArgs true "video" "/downloads/out"
        "/cwd/cookies.txt" "https://www.instagram.com/p/x/") ∧
    ("--cookies-from-browser" ∈ instagramArgs false "video" "/downloads/out"
        "/cwd/cookies.txt" "https://www.instagram.com/p/x/" ∧
      "--cookies" ∉ instagramArgs false "video" "/downloads/out" "/cwd/cookies.txt"
        "https://www.instagram.com/p/x/")) :=
  C6_instagram_cookie_selection "video" "/downloads/out" "/cwd/cookies.txt"
    "https://www.instagram.com/p/x/" (by decide) (by decide) (by decide) (by decide)
    (by decide)

/-- C7 counterexample: the serialized (Instagram) invocation does not resolve
the executable by probing — when no candidate location exists on disk, the
probing resolver of `processMedia` falls back to the ambient-path name
`yt-dlp`, but `processInstagramMedia` still uses its hardcoded absolute path,
which under this filesystem does not even exist. -/
theorem C7_counterexample_instagram_hardcoded :
    igYtDlpPath ≠ resolveYtDlpPath (fun _ => false) ∧
      (fun _ => false : String → Bool) igYtDlpPath = false := by
  constructor
  · decide
  · rfl

/-- C7 amended: `processMedia` resolves yt-dlp by probing the fixed candidate
list in order — the first existing candidate wins and the bare name `yt-dlp`
(ambient execution path) is the fallback when none exists — while
`processInstagramMedia` bypasses the probing entirely and always uses the
hardcoded first candidate path. -/
theorem C7_amended_path_probing :
    (∀ pathExists : String → Bool,
        pathExists "/home/runner/workspace/.pythonlibs/bin/yt-dlp" = true →
        resolveYtDlpPath pathExists = "/home/runner/workspace/.pythonlibs/bin/yt-dlp") ∧
    (∀ pathExists : String → Bool,
        pathExists "/home/runner/workspace/.pythonlibs/bin/yt-dlp" = false →
        pathExists "/usr/local/bin/yt-dlp" = true →
        resolveYtDlpPath pathExists = "/usr/local/bin/yt-dlp") ∧
    (∀ pathExists : String → Bool,
        (∀ p ∈ possiblePaths, p ≠ "yt-dlp" → pathExists p = false) →
        resolveYtDlpPath pathExists = "yt-dlp") ∧
    igYtDlpPath = "/home/runner/workspace/.pythonlibs/bin/yt-dlp" := by
  refine ⟨?_, ?_, ?_, rfl⟩
  · intro pathExists h
    simp [resolveYtDlpPath, possiblePaths, List.find?, h]
  · intro pathExists h1 h2
    simp [resolveYtDlpPath, possiblePaths, List.find?, h1, h2]
  · intro pathExists h
    have h1 := h "/home/runner/workspace/.pythonlibs/bin/yt-dlp" (by simp [possiblePaths]) (by decide)
    have h2 := h "/usr/local/bin/yt-dlp" (by simp [possiblePaths]) (by decide)
    have h3 := h "/usr/bin/yt-dlp" (by simp [possiblePaths]) (by decide)
    simp [resolveYtDlpPath, possiblePaths, List.find?, h1, h2, h3]

theorem C7_amended_path_probing_witness :
    resolveYtDlpPath (fun _ => true) = "/home/runner/workspace/.pythonlibs/bin/yt-dlp" ∧
      resolveYtDlpPath (fun _ => false) = "yt-dlp" ∧
      igYtDlpPath = "/home/runner/workspace/.pythonlibs/bin/yt-dlp" :=
  ⟨C7_amended_path_probing.1 (fun _ => true) rfl,
    C7_amended_path_probing.2.2.1 (fun _ => false) (fun _ _ _ => rfl),
    C7_amended_path_probing.2.2.2⟩

theorem strContains_empty {p : String} (hp : p ≠ "") : strContains "" p = false := by
  rw [String.ne_empty_iff_data] at hp
  simp [strContains, List.infix_nil, hp]

/-- C3: stderr classification is applied before the exit code — stderr
containing `HTTP Error 429` yields the rate-limited failure for every exit
code including 0 and is never `success`; with empty stderr and exit code 0
the outcome is `success`; and the close handler of `processMedia` realizes
the outcome: a `failure u` writes exactly `u`, a `success` proceeds to the
artifact locator.  The last conjunct is the same 429-before-exit-code fact
for `processInstagramMedia`'s close handler. -/
theorem C3_stderr_classified_before_exit_code :
    (∀ platformName stderr code, strContains stderr "HTTP Error 429" = true →
      classifyOutcome platformName stderr code =
        .failure (failedPatch ("Rate limited by " ++ platformName ++
          ". Please wait a few minutes before trying again.")) ∧
      classifyOutcome platformName stderr code ≠ .success) ∧
    (∀ platformName, classifyOutcome platformName "" (some 0) = .success) ∧
    (∀ platformName stderr code files token now mtime fsize infoTitle meta downloadId u,
      classifyOutcome platformName stderr code = .failure u →
      ytDlpCloseUpdate platformName stderr code files token now mtime fsize infoTitle
        meta none downloadId = u) ∧
    (∀ platformName stderr code files token now mtime fsize infoTitle meta downloadId,
      classifyOutcome platformName stderr code = .success →
      ytDlpCloseUpdate platformName stderr code files token now mtime fsize infoTitle
        meta none downloadId =
        (match locate files token now mtime with
          | some f => completedPatch downloadId
              (infoTitle.getD ("Downloaded from " ++ platformName)) f (fsize f) meta
          | none => failedPatch "Download completed but no file was found")) ∧
    (∀ stderr code files token fsize infoTitle meta fsErr downloadId,
      strContains stderr "HTTP Error 429" = true →
      igCloseUpdate stderr code files token fsize infoTitle meta fsErr downloadId =
        failedPatch
          "Instagram rate limiting detected. The system will automatically wait 60 seconds between Instagram requests to avoid this. Try again in a few minutes.") := by
  refine ⟨?_, ?_, ?_, ?_, ?_⟩
  · intro platformName stderr code h
    constructor
    · simp [classifyOutcome, stderrClassify, h]
    · simp [classifyOutcome, stderrClassify, h]
  · intro platformName
    simp [classifyOutcome, stderrClassify, strContains_empty]
  · intro platformName stderr code files token now mtime fsize infoTitle meta downloadId u h
    unfold classifyOutcome at h
    unfold ytDlpCloseUpdate
    cases hsc : stderrClassify platformName stderr with
    | some v => rw [hsc] at h; cases h; rfl
    | none =>
        rw [hsc] at h
        by_cases hc : code = some 0
        · simp [hc] at h
        · simp only [if_neg hc] at h
          cases h
          simp [hc]
  · intro platformName stderr code files token now mtime fsize infoTitle meta downloadId h
    unfold classifyOutcome at h
    unfold ytDlpCloseUpdate
    cases hsc : stderrClassify platformName stderr with
    | some v => rw [hsc] at h; cases h
    | none =>
        rw [hsc] at h
        by_cases hc : code = some 0
        · simp [hc]
        · simp [if_neg hc] at h
  · intro stderr code files token fsize infoTitle meta fsErr downloadId h
    simp [igCloseUpdate, h]

theorem C3_stderr_classified_before_exit_code_witness :
    (classifyOutcome "YouTube" "WARNING: HTTP Error 429: Too Many Requests" (some 0) =
        .failure (failedPatch
          "Rate limited by YouTube. Please wait a few minutes before trying again.") ∧
      classifyOutcome "YouTube" "WARNING: HTTP Error 429: Too Many Requests" (some 0) ≠
        .success) ∧
    classifyOutcome "YouTube" "" (some 0) = .success ∧
    igCloseUpdate "HTTP Error 429" (some 0) [] "tok" (fun _ => 0) none
        (MetaVal.parsedInfo "") none 7 =
      failedPatch
        "Instagram rate limiting detected. The system will automatically wait 60 seconds between Instagram requests to avoid this. Try again in a few minutes." :=
  ⟨C3_stderr_classified_before_exit_code.1 "YouTube"
      "WARNING: HTTP Error 429: Too Many Requests" (some 0) (by decide),
    C3_stderr_classified_before_exit_code.2.1 "YouTube",
    C3_stderr_classified_before_exit_code.2.2.2.2 "HTTP Error 429" (some 0) [] "tok"
      (fun _ => 0) none (MetaVal.parsedInfo "") none 7 (by decide)⟩

theorem tokenCandidate_mem {files : List String} {token f : String}
    (h : tokenCandidate files token = some f) : f ∈ files :=
  List.mem_of_find?_eq_some h

theorem recentCandidates_head_spec (files : List String) (now : Nat)
    (mtime : String → Nat) (f : String)
    (h : (recentCandidates files now mtime).head? = some f) :
    f ∈ files ∧ excludedForRecency f = false ∧ now - mtime f < 300000 ∧
      ∀ g ∈ files, excludedForRecency g = false → now - mtime g < 300000 →
        mtime g ≤ mtime f := by
  have htrans : ∀ a b c : String, (fun a b => decide (mtime b ≤ mtime a)) a b →
      (fun a b => decide (mtime b ≤ mtime a)) b c →
      (fun a b => decide (mtime b ≤ mtime a)) a c := by
    intro a b c hab hbc
    simp only [decide_eq_true_eq] at *
    omega
  have htotal : ∀ a b : String, ((fun a b => decide (mtime b ≤ mtime a)) a b ||
      (fun a b => decide (mtime b ≤ mtime a)) b a) = true := by
    intro a b
    simp [Bool.or_eq_true, decide_eq_true_eq]
    omega
  obtain ⟨tl, htl⟩ : ∃ tl, recentCandidates files now mtime = f :: tl := by
    cases hrc : recentCandidates files now mtime with
    | nil => rw [hrc] at h; simp at h
    | cons a tl => rw [hrc] at h; simp at h; exact ⟨tl, by rw [h]⟩
  have hsorted := List.sorted_mergeSort htrans htotal
    (files.filter fun g => !(excludedForRecency g) && now - mtime g < 300000)
  rw [show ((files.filter fun g => !(excludedForRecency g) && now - mtime g < 300000).mergeSort
      fun a b => decide (mtime b ≤ mtime a)) = recentCandidates files now mtime from rfl,
    htl] at hsorted
  have hmemf : f ∈ files.filter fun g => !(excludedForRecency g) && now - mtime g < 300000 := by
    have : f ∈ recentCandidates files now mtime := by rw [htl]; simp
    simpa [recentCandidates] using this
  rw [List.mem_filter] at hmemf
  obtain ⟨hff, hfp⟩ := hmemf
  have hfp1 : excludedForRecency f = false ∧ now - mtime f < 300000 := by
    have := hfp
    simp only [Bool.and_eq_true, Bool.not_eq_true', decide_eq_true_eq] at this
    exact this
  refine ⟨hff, hfp1.1, hfp1.2, ?_⟩
  intro g hg hge hgr
  have hgmem : g ∈ recentCandidates files now mtime := by
    simp only [recentCandidates, List.mem_mergeSort, List.mem_filter]
    exact ⟨hg, by simp [hge, hgr]⟩
  rw [htl] at hgmem
  rcases List.mem_cons.mp hgmem with hgf | hgtl
  · subst hgf; omega
  · have := (List.pairwise_cons.mp hsorted).1 g hgtl
    simpa using this

/-- C5: the artifact locator applies its layers in order — token-prefix match
excluding `.info.json` and `.part`, then the most recent non-excluded file
modified within the last five minutes, then any filename containing the
token; on the worked scenario it returns `abc123_video.mp4`; and when every
layer comes up empty after a clean exit, the close handler fails the job. -/
theorem C5_artifact_locator_layers :
    (∀ now mtime, locate ["abc123_video.mp4", "abc123.info.json", "unrelated.mp4"]
        "abc123" now mtime = some "abc123_video.mp4") ∧
    (∀ files token now mtime f, tokenCandidate files token = some f →
        locate files token now mtime = some f) ∧
    (∀ files token now mtime f, tokenCandidate files token = none →
        (recentCandidates files now mtime).head? = some f →
        locate files token now mtime = some f) ∧
    (∀ files token now mtime, tokenCandidate files token = none →
        (recentCandidates files now mtime).head? = none →
        locate files token now mtime = (files.find? fun f => strContains f token)) ∧
    (∀ files now mtime f, (recentCandidates files now mtime).head? = some f →
        f ∈ files ∧ excludedForRecency f = false ∧ now - mtime f < 300000 ∧
          ∀ g ∈ files, excludedForRecency g = false → now - mtime g < 300000 →
            mtime g ≤ mtime f) ∧
    (∀ platformName stderr files token now mtime fsize infoTitle meta downloadId,
        stderrClassify platformName stderr = none →
        locate files token now mtime = none →
        ytDlpCloseUpdate platformName stderr (some 0) files token now mtime fsize
          infoTitle meta none downloadId =
          failedPatch "Download completed but no file was found") := by
  refine ⟨?_, ?_, ?_, ?_, recentCandidates_head_spec, ?_⟩
  · intro now mtime
    rfl
  · intro files token now mtime f h
    simp [locate, h]
  · intro files token now mtime f h1 h2
    simp [locate, h1, h2]
  · intro files token now mtime h1 h2
    simp [locate, h1, h2]
  · intro platformName stderr files token now mtime fsize infoTitle meta downloadId h1 h2
    simp [ytDlpCloseUpdate, h1, h2]

theorem C5_artifact_locator_layers_witness :
    locate ["abc123_video.mp4", "abc123.info.json", "unrelated.mp4"] "abc123" 0
        (fun _ => 0) = some "abc123_video.mp4" ∧
      locate ["t1.mp4"] "t1" 0 (fun _ => 0) = some "t1.mp4" ∧
      ytDlpCloseUpdate "YouTube" "" (some 0) [] "t1" 0 (fun _ => 0) (fun _ => 0) none
          (MetaVal.parsedInfo "") none 3 =
        failedPatch "Download completed but no file was found" :=
  ⟨C5_artifact_locator_layers.1 0 (fun _ => 0),
    C5_artifact_locator_layers.2.1 ["t1.mp4"] "t1" 0 (fun _ => 0) "t1.mp4" (by decide),
    C5_artifact_locator_layers.2.2.2.2.2 "YouTube" "" [] "t1" 0 (fun _ => 0) (fun _ => 0)
      none (MetaVal.parsedInfo "") 3 (by decide)
      (by simp [locate, tokenCandidate, recentCandidates])⟩

/-- C10: a URL matching the direct-image regex takes the direct-image branch
of `processMedia` for every hostname — the check precedes the Instagram
dispatch, so even `instagram.com` URLs bypass yt-dlp and the queue — and the
direct HTTP handler completes the job with the byte count and a
`directImage` metadata marker on success, or fails it with the error
message on a non-ok response or a thrown error. -/
theorem C10_direct_image_bypass :
    (∀ hostname url, isDirectImageUrl url = true →
        routeFor hostname url = .directImage) ∧
    isDirectImageUrl "https://www.instagram.com/p/abc/photo.jpg" = true ∧
    isDirectImageUrl "https://cdn.example.com/pic.PNG?size=large" = true ∧
    detectPlatform (some "www.instagram.com")
        "https://www.instagram.com/p/abc/photo.jpg" = "Instagram" ∧
    routeFor (some "www.instagram.com")
        "https://www.instagram.com/p/abc/photo.jpg" = .directImage ∧
    (∀ downloadId url fname contentType bytes,
        (directImageUpdate downloadId url fname (.ok contentType bytes)).status =
            some "completed" ∧
          (directImageUpdate downloadId url fname (.ok contentType bytes)).fileSize =
            some (some bytes) ∧
          (directImageUpdate downloadId url fname (.ok contentType bytes)).metadata =
            some (some (MetaVal.directImageMeta url contentType)) ∧
          (directImageUpdate downloadId url fname (.ok contentType bytes)).downloadUrl =
            some (some ("/api/download/" ++ toString downloadId))) ∧
    (∀ downloadId url fname statusCode statusText,
        directImageUpdate downloadId url fname (.httpError statusCode statusText) =
          failedPatch ("HTTP " ++ toString statusCode ++ ": " ++ statusText)) ∧
    (∀ downloadId url fname emsg,
        directImageUpdate downloadId url fname (.thrown emsg) =
          failedPatch (emsg.getD "Failed to download image")) := by
  refine ⟨?_, by decide, by decide, by decide, by decide, ?_, ?_, ?_⟩
  · intro hostname url h
    simp [routeFor, h]
  · intro downloadId url fname contentType bytes
    exact ⟨rfl, rfl, rfl, rfl⟩
  · intro downloadId url fname statusCode statusText
    rfl
  · intro downloadId url fname emsg
    rfl

theorem C10_direct_image_bypass_witness :
    routeFor (some "www.instagram.com")
        "https://www.instagram.com/p/abc/photo.jpg" = MediaRoute.directImage :=
  C10_direct_image_bypass.1 (some "www.instagram.com")
    "https://www.instagram.com/p/abc/photo.jpg" (by decide)

theorem termStable_singleton (s : String) : TermStable [s] := by
  intro i j hi hj hij hterm
  simp only [List.length_singleton] at hi hj
  have hi0 : i = 0 := by omega
  have hj0 : j = 0 := by omega
  subst hi0; subst hj0; rfl

theorem termStable_cons_processing (l : List String) (h : TermStable l) :
    TermStable ("processing" :: l) := by
  intro i j hi hj hij hterm
  cases i with
  | zero =>
      simp only [List.getElem_cons_zero] at hterm
      rcases hterm with h1 | h1 <;> simp at h1
  | succ i' =>
      cases j with
      | zero => omega
      | succ j' =>
          simp only [List.getElem_cons_succ] at hterm ⊢
          exact h i' j' (by simp only [List.length_cons] at hi; omega)
            (by simp only [List.length_cons] at hj; omega) (by omega) hterm

theorem termStable_scanl (init : Download) (pre : List UpdateDownload)
    (last : UpdateDownload) (hinit : init.status = "processing")
    (hpre : ∀ u ∈ pre, u.status = some "processing") :
    TermStable ((List.scanl applyUpdate init (pre ++ [last])).map
      (fun d => d.status)) := by
  induction pre generalizing init with
  | nil =>
      show TermStable ((List.scanl applyUpdate init ([] ++ [last])).map (fun d => d.status))
      rw [show List.scanl applyUpdate init ([] ++ [last]) =
        [init, applyUpdate init last] from rfl]
      simp only [List.map_cons, List.map_nil, hinit]
      exact termStable_cons_processing _ (termStable_singleton _)
  | cons u us ih =>
      show TermStable ((List.scanl applyUpdate init ((u :: us) ++ [last])).map
        (fun d => d.status))
      rw [show List.scanl applyUpdate init ((u :: us) ++ [last]) =
        init :: List.scanl applyUpdate (applyUpdate init u) (us ++ [last]) from rfl]
      simp only [List.map_cons, hinit]
      refine termStable_cons_processing _ (ih (applyUpdate init u) ?_ ?_)
      · simp [applyUpdate, hpre u (by simp)]
      · intro v hv
        exact hpre v (by simp [hv])

theorem igQueueUpdates_status (k : Option Nat) :
    ∀ u ∈ igQueueUpdates k, u.status = some "processing" := by
  intro u hu
  cases k with
  | none =>
      simp only [igQueueUpdates, List.mem_singleton] at hu
      subst hu; rfl
  | some n =>
      simp only [igQueueUpdates, List.mem_cons, List.mem_singleton,
        List.not_mem_nil, or_false] at hu
      rcases hu with h | h <;> (subst h; rfl)

/-- C1: along every per-job update sequence the orchestration core can
produce, the status trace is terminal-stable: every status written before
the final update is `processing`, so a job that is `completed` or `failed`
is never moved to any other status by the queue worker, the close handlers
or the error paths (it can only disappear by external deletion, which is a
store operation, not a status write). -/
theorem C1_terminal_status_stable (init : Download) (tr : List UpdateDownload)
    (htr : JobTrace tr) (hinit : init.status = "processing") :
    TermStable ((List.scanl applyUpdate init tr).map (fun d => d.status)) := by
  cases htr with
  | direct downloadId url fname res =>
      exact termStable_scanl init [] _ hinit (by simp)
  | instaClose k stderr code files token fsize infoTitle meta fsErr downloadId =>
      exact termStable_scanl init (igQueueUpdates k) _ hinit (igQueueUpdates_status k)
  | instaCatch k =>
      exact termStable_scanl init (igQueueUpdates k) _ hinit (igQueueUpdates_status k)
  | ytClose platformName stderr code files token now mtime fsize infoTitle meta fsErr downloadId =>
      exact termStable_scanl init [] _ hinit (by simp)
  | ytSpawnError emsg =>
      exact termStable_scanl init [] _ hinit (by simp)
  | ytCatch emsg =>
      exact termStable_scanl init [] _ hinit (by simp)

theorem C1_terminal_status_stable_witness :
    TermStable ((List.scanl applyUpdate
      (createDownload 1 "https://youtu.be/x" (some "YouTube Media") "YouTube" "video"
        none (some "processing") 1700000000000)
      (igQueueUpdates (some 42) ++ [igCatchPatch])).map (fun d => d.status)) :=
  C1_terminal_status_stable _ _ (JobTrace.instaCatch (some 42)) rfl

theorem String.append_ne_empty_right {a b : String} (h : b ≠ "") : a ++ b ≠ "" := by
  rw [String.ne_empty_iff_data] at h ⊢
  intro hab
  apply h
  have : (a ++ b).data = a.data ++ b.data := String.data_append a b
  rw [hab] at this
  exact (List.append_eq_nil.mp this.symm).2

theorem fieldInv_of_init {d : Download} (hd : InitJobState d) : fieldInv d := by
  obtain ⟨h1, h2, h3, h4⟩ := hd
  refine ⟨?_, ?_, ?_, ?_, ?_, ?_⟩ <;> simp [h1, h2, h3, h4]

theorem fieldInv_failed {d : Download} (m : String) (hm : m ≠ "")
    (hfn : d.filename = none) (hdu : d.downloadUrl = none) :
    fieldInv (applyUpdate d (failedPatch m)) := by
  refine ⟨?_, ?_, ?_, ?_, ?_, ?_⟩ <;>
    simp [applyUpdate, failedPatch, fieldInv, isWaitingState, hfn, hdu, hm]

theorem fieldInv_completed {d : Download} (id0 : Nat) (t f : String) (sz : Nat)
    (mv : MetaVal) (hf : f ≠ "") (herr : d.errorMessage = none) :
    fieldInv (applyUpdate d (completedPatch id0 t f sz mv)) := by
  have hdu : ("/api/download/" ++ toString id0) ≠ "" :=
    String.append_ne_empty_left (by decide)
  refine ⟨?_, ?_, ?_, ?_, ?_, ?_⟩ <;>
    simp [applyUpdate, completedPatch, isWaitingState, hf, hdu, herr]

theorem fieldInv_final {d : Download} {p : UpdateDownload} (hd : InitJobState d)
    (hp : GoodFinal p) : fieldInv (applyUpdate d p) := by
  obtain ⟨h1, h2, h3, h4⟩ := hd
  rcases hp with ⟨m, hpe, hm⟩ | ⟨id0, t, f, sz, mv, hpe, hf⟩
  · rw [hpe]; exact fieldInv_failed m hm h2 h3
  · rw [hpe]; exact fieldInv_completed id0 t f sz mv hf h4

theorem fieldInv_waiting {d : Download} (n : Nat) (hd : InitJobState d) :
    fieldInv (applyUpdate d (igWaitingPatch n)) := by
  obtain ⟨h1, h2, h3, h4⟩ := hd
  refine ⟨?_, ?_, ?_, ?_, ?_, ?_⟩ <;>
    simp [applyUpdate, igWaitingPatch, isWaitingState, h2, h3]

theorem initJobState_clear {d : Download} (hd : d.filename = none ∧ d.downloadUrl = none) :
    InitJobState (applyUpdate d igClearPatch) := by
  exact ⟨rfl, hd.1, hd.2, rfl⟩

theorem initJobState_queue {d : Download} (k : Option Nat) (hd : InitJobState d) :
    ∀ s ∈ List.scanl applyUpdate d (igQueueUpdates k), fieldInv s := by
  intro s hs
  cases k with
  | none =>
      rw [show List.scanl applyUpdate d (igQueueUpdates none) =
        [d, applyUpdate d igClearPatch] from rfl] at hs
      rcases List.mem_cons.mp hs with h | hs
      · rw [h]; exact fieldInv_of_init hd
      · rcases List.mem_cons.mp hs with h | hs
        · rw [h]; exact fieldInv_of_init (initJobState_clear ⟨hd.2.1, hd.2.2.1⟩)
        · simp at hs
  | some n =>
      rw [show List.scanl applyUpdate d (igQueueUpdates (some n)) =
        [d, applyUpdate d (igWaitingPatch n),
          applyUpdate (applyUpdate d (igWaitingPatch n)) igClearPatch] from rfl] at hs
      rcases List.mem_cons.mp hs with h | hs
      · rw [h]; exact fieldInv_of_init hd
      · rcases List.mem_cons.mp hs with h | hs
        · rw [h]; exact fieldInv_waiting n hd
        · rcases List.mem_cons.mp hs with h | hs
          · rw [h]
            refine fieldInv_of_init (initJobState_clear ⟨?_, ?_⟩) <;>
              simp [applyUpdate, igWaitingPatch, hd.2.1, hd.2.2.1]
          · simp at hs

theorem queueEndState {d : Download} (k : Option Nat) (hd : InitJobState d) :
    InitJobState (List.foldl applyUpdate d (igQueueUpdates k)) := by
  cases k with
  | none =>
      exact initJobState_clear ⟨hd.2.1, hd.2.2.1⟩
  | some n =>
      show InitJobState (applyUpdate (applyUpdate d (igWaitingPatch n)) igClearPatch)
      refine initJobState_clear ⟨?_, ?_⟩ <;>
        simp [applyUpdate, igWaitingPatch, hd.2.1, hd.2.2.1]

theorem nonzeroErrorMessage_ne_empty (stderr : String) (code : Option Int) :
    nonzeroErrorMessage stderr code ≠ "" := by
  unfold nonzeroErrorMessage
  split_ifs <;>
    first
      | decide
      | exact String.append_ne_empty_left (by decide)
      | (show stderr ≠ ""; assumption)

theorem stderrClassify_shape {platformName stderr : String} {u : UpdateDownload}
    (h : stderrClassify platformName stderr = some u) :
    ∃ m, u = failedPatch m ∧ m ≠ "" := by
  unfold stderrClassify at h
  split_ifs at h with h1 h2 h3 h4
  · cases h
    exact ⟨_, rfl, String.append_ne_empty_right (by decide)⟩
  · cases h
    exact ⟨_, rfl, String.append_ne_empty_right (by decide)⟩
  · cases h
    exact ⟨_, rfl, String.append_ne_empty_right (by decide)⟩
  · cases h
    exact ⟨_, rfl, by decide⟩

theorem locate_mem {files : List String} {token : String} {now : Nat}
    {mtime : String → Nat} {f : String}
    (h : locate files token now mtime = some f) : f ∈ files := by
  unfold locate at h
  cases h1 : tokenCandidate files token with
  | some g =>
      rw [h1] at h
      have hg : g = f := by injection h
      subst hg
      exact tokenCandidate_mem h1
  | none =>
      rw [h1] at h
      cases h2 : (recentCandidates files now mtime).head? with
      | some g =>
          rw [h2] at h
          have hg : g = f := by injection h
          subst hg
          exact (recentCandidates_head_spec files now mtime g h2).1
      | none =>
          rw [h2] at h
          exact List.mem_of_find?_eq_some h

theorem igCloseUpdate_shape (stderr : String) (code : Option Int)
    (files : List String) (token : String) (fsize : String → Nat)
    (infoTitle : Option String) (meta : MetaVal) (fsErr : Option (Option String))
    (downloadId : Nat) (hfiles : ∀ f ∈ files, f ≠ "") :
    GoodFinal (igCloseUpdate stderr code files token fsize infoTitle meta fsErr downloadId) := by
  unfold igCloseUpdate
  split_ifs with h1 h2
  · exact Or.inl ⟨_, rfl, by decide⟩
  · cases fsErr with
    | some e => exact Or.inl ⟨_, rfl, by decide⟩
    | none =>
        cases htc : tokenCandidate files token with
        | some f =>
            exact Or.inr ⟨downloadId, _, f, _, _, rfl, hfiles f (tokenCandidate_mem htc)⟩
        | none => exact Or.inl ⟨_, rfl, by decide⟩
  · exact Or.inl ⟨_, rfl, by decide⟩

theorem ytDlpCloseUpdate_shape (platformName stderr : String) (code : Option Int)
    (files : List String) (token : String) (now : Nat) (mtime : String → Nat)
    (fsize : String → Nat) (infoTitle : Option String) (meta : MetaVal)
    (fsErr : Option (Option String)) (downloadId : Nat)
    (hfiles : ∀ f ∈ files, f ≠ "") :
    GoodFinal (ytDlpCloseUpdate platformName stderr code files token now mtime fsize
      infoTitle meta fsErr downloadId) := by
  unfold ytDlpCloseUpdate
  cases hsc : stderrClassify platformName stderr with
  | some u =>
      obtain ⟨m, hm, hne⟩ := stderrClassify_shape hsc
      exact Or.inl ⟨m, hm, hne⟩
  | none =>
      by_cases hc : code = some 0
      · rw [if_pos hc]
        cases fsErr with
        | some e =>
            exact Or.inl ⟨_, rfl, String.append_ne_empty_left (by decide)⟩
        | none =>
            cases hl : locate files token now mtime with
            | some f =>
                exact Or.inr ⟨downloadId, _, f, _, _, rfl, hfiles f (locate_mem hl)⟩
            | none => exact Or.inl ⟨_, rfl, by decide⟩
      · rw [if_neg hc]
        exact Or.inl ⟨_, rfl, nonzeroErrorMessage_ne_empty stderr code⟩

theorem directImageUpdate_shape (downloadId : Nat) (url fname : String)
    (res : FetchOutcome) (hw : FetchWf res) :
    GoodFinal (directImageUpdate downloadId url fname res) := by
  cases res with
  | ok contentType bytes =>
      refine Or.inr ⟨downloadId, "Direct Image Download",
        fname ++ "_DirectImage-image." ++ imageExtFor contentType, bytes,
        MetaVal.directImageMeta url contentType, rfl, ?_⟩
      exact String.append_ne_empty_left (String.append_ne_empty_right (by decide))
  | httpError statusCode statusText =>
      exact Or.inl ⟨_, rfl, String.append_ne_empty_left
        (String.append_ne_empty_right (by decide))⟩
  | thrown emsg =>
      cases emsg with
      | some m => exact Or.inl ⟨m, rfl, hw⟩
      | none => exact Or.inl ⟨_, rfl, by decide⟩

theorem allStatesInv_single {init : Download} (p : UpdateDownload)
    (hd : InitJobState init) (hp : GoodFinal p) :
    ∀ s ∈ List.scanl applyUpdate init [p], fieldInv s := by
  intro s hs
  rw [show List.scanl applyUpdate init [p] = [init, applyUpdate init p] from rfl] at hs
  rcases List.mem_cons.mp hs with h | hs
  · rw [h]; exact fieldInv_of_init hd
  · rcases List.mem_cons.mp hs with h | hs
    · rw [h]; exact fieldInv_final hd hp
    · simp at hs

theorem allStatesInv_queued {init : Download} (k : Option Nat) (p : UpdateDownload)
    (hd : InitJobState init) (hp : GoodFinal p) :
    ∀ s ∈ List.scanl applyUpdate init (igQueueUpdates k ++ [p]), fieldInv s := by
  intro s hs
  cases k with
  | none =>
      rw [show List.scanl applyUpdate init (igQueueUpdates none ++ [p]) =
        [init, applyUpdate init igClearPatch,
          applyUpdate (applyUpdate init igClearPatch) p] from rfl] at hs
      have hd1 : InitJobState (applyUpdate init igClearPatch) :=
        initJobState_clear ⟨hd.2.1, hd.2.2.1⟩
      rcases List.mem_cons.mp hs with h | hs
      · rw [h]; exact fieldInv_of_init hd
      · rcases List.mem_cons.mp hs with h | hs
        · rw [h]; exact fieldInv_of_init hd1
        · rcases List.mem_cons.mp hs with h | hs
          · rw [h]; exact fieldInv_final hd1 hp
          · simp at hs
  | some n =>
      rw [show List.scanl applyUpdate init (igQueueUpdates (some n) ++ [p]) =
        [init, applyUpdate init (igWaitingPatch n),
          applyUpdate (applyUpdate init (igWaitingPatch n)) igClearPatch,
          applyUpdate (applyUpdate (applyUpdate init (igWaitingPatch n)) igClearPatch)
            p] from rfl] at hs
      have hd2 : InitJobState
          (applyUpdate (applyUpdate init (igWaitingPatch n)) igClearPatch) := by
        refine initJobState_clear ⟨?_, ?_⟩ <;>
          simp [applyUpdate, igWaitingPatch, hd.2.1, hd.2.2.1]
      rcases List.mem_cons.mp hs with h | hs
      · rw [h]; exact fieldInv_of_init hd
      · rcases List.mem_cons.mp hs with h | hs
        · rw [h]; exact fieldInv_waiting n hd
        · rcases List.mem_cons.mp hs with h | hs
          · rw [h]; exact fieldInv_of_init hd2
          · rcases List.mem_cons.mp hs with h | hs
            · rw [h]; exact fieldInv_final hd2 hp
            · simp at hs

/-- C2: along every code path, every record state from creation to the
terminal update satisfies the field-consistency invariant: `filename` and
`downloadUrl` are set (and non-empty) iff the status is `completed`, a
`failed` status comes with a non-empty `errorMessage`, and an error message
on a non-failed record can only be the advisory waiting message of the
queue's `processing` sub-state.  Hypotheses: the job starts in the state
`createDownload` produces (status `processing`, no artifact fields), the
directory listing has no empty names, and raw exception messages copied
verbatim into `errorMessage` are non-empty. -/
theorem C2_terminal_field_consistency :
    (∀ init downloadId url fname res, InitJobState init → FetchWf res →
        ∀ s ∈ List.scanl applyUpdate init [directImageUpdate downloadId url fname res],
          fieldInv s) ∧
    (∀ init k stderr code files token fsize infoTitle meta fsErr downloadId,
        InitJobState init → (∀ f ∈ files, f ≠ "") →
        ∀ s ∈ List.scanl applyUpdate init (igQueueUpdates k ++
          [igCloseUpdate stderr code files token fsize infoTitle meta fsErr downloadId]),
          fieldInv s) ∧
    (∀ init k, InitJobState init →
        ∀ s ∈ List.scanl applyUpdate init (igQueueUpdates k ++ [igCatchPatch]),
          fieldInv s) ∧
    (∀ init platformName stderr code files token now mtime fsize infoTitle meta
        fsErr downloadId, InitJobState init → (∀ f ∈ files, f ≠ "") →
        ∀ s ∈ List.scanl applyUpdate init [ytDlpCloseUpdate platformName stderr code
          files token now mtime fsize infoTitle meta fsErr downloadId], fieldInv s) ∧
    (∀ init emsg, InitJobState init →
        ∀ s ∈ List.scanl applyUpdate init [pmSpawnErrorPatch emsg], fieldInv s) ∧
    (∀ init emsg, InitJobState init → (∀ m, emsg = some m → m ≠ "") →
        ∀ s ∈ List.scanl applyUpdate init [pmCatchPatch emsg], fieldInv s) := by
  refine ⟨?_, ?_, ?_, ?_, ?_, ?_⟩
  · intro init downloadId url fname res hd hw
    exact allStatesInv_single _ hd (directImageUpdate_shape downloadId url fname res hw)
  · intro init k stderr code files token fsize infoTitle meta fsErr downloadId hd hfiles
    exact allStatesInv_queued k _ hd
      (igCloseUpdate_shape stderr code files token fsize infoTitle meta fsErr
        downloadId hfiles)
  · intro init k hd
    exact allStatesInv_queued k _ hd (Or.inl ⟨_, rfl, by decide⟩)
  · intro init platformName stderr code files token now mtime fsize infoTitle meta
      fsErr downloadId hd hfiles
    exact allStatesInv_single _ hd
      (ytDlpCloseUpdate_shape platformName stderr code files token now mtime fsize
        infoTitle meta fsErr downloadId hfiles)
  · intro init emsg hd
    exact allStatesInv_single _ hd
      (Or.inl ⟨_, rfl, String.append_ne_empty_left (by decide)⟩)
  · intro init emsg hd hmsg
    refine allStatesInv_single _ hd ?_
    cases emsg with
    | some m => exact Or.inl ⟨m, rfl, hmsg m rfl⟩
    | none => exact Or.inl ⟨_, rfl, by decide⟩

theorem C2_terminal_field_consistency_witness :
    ∀ s ∈ List.scanl applyUpdate
      (createDownload 2 "https://example.com/a.jpg" (some "Direct Image Media")
        "Direct Image" "image" none (some "processing") 1700000000000)
      [directImageUpdate 2 "https://example.com/a.jpg" "tok-2"
        (FetchOutcome.ok "image/png" 2048)], fieldInv s :=
  C2_terminal_field_consistency.1
    (createDownload 2 "https://example.com/a.jpg" (some "Direct Image Media")
      "Direct Image" "image" none (some "processing") 1700000000000)
    2 "https://example.com/a.jpg" "tok-2" (FetchOutcome.ok "image/png" 2048)
    ⟨rfl, rfl, rfl, rfl⟩ trivial

/-- C8 counterexample: the update schema omits only `id`, `url`, `createdAt`,
so a patch setting `platform`, `format` and `quality` is a valid
`UpdateDownload`; the store accepts it and the spread overwrites all three
supposedly immutable fields. -/
theorem C8_counterexample_mutable_fields :
    ((memUpdateDownload
        (fun k => if k = 1 then some
          { id := 1, url := "https://www.instagram.com/p/abc/",
            title := some "Instagram Media", platform := "Instagram",
            format := "video", quality := some "best", filename := none,
            fileSize := none, status := "processing", downloadUrl := none,
            metadata := none, errorMessage := none,
            createdAt := 1700000000000 } else none)
        1
        { platform := some "YouTube", format := some "audio",
          quality := some (some "720p") }).2.map
      (fun d => (d.platform, d.format, d.quality))) =
        some ("YouTube", "audio", some "720p") ∧
      (("YouTube", "audio", (some "720p" : Option String)) ≠
        ("Instagram", "video", some "best")) := by
  exact ⟨rfl, by decide⟩

theorem igCloseUpdate_frame (stderr : String) (code : Option Int)
    (files : List String) (token : String) (fsize : String → Nat)
    (infoTitle : Option String) (meta : MetaVal) (fsErr : Option (Option String))
    (downloadId : Nat) :
    (igCloseUpdate stderr code files token fsize infoTitle meta fsErr
        downloadId).platform = none ∧
      (igCloseUpdate stderr code files token fsize infoTitle meta fsErr
        downloadId).format = none ∧
      (igCloseUpdate stderr code files token fsize infoTitle meta fsErr
        downloadId).quality = none := by
  unfold igCloseUpdate
  split_ifs with h1 h2
  · exact ⟨rfl, rfl, rfl⟩
  · cases fsErr with
    | none => cases tokenCandidate files token <;> exact ⟨rfl, rfl, rfl⟩
    | some e => exact ⟨rfl, rfl, rfl⟩
  · exact ⟨rfl, rfl, rfl⟩

theorem ytDlpCloseUpdate_frame (platformName stderr : String) (code : Option Int)
    (files : List String) (token : String) (now : Nat) (mtime : String → Nat)
    (fsize : String → Nat) (infoTitle : Option String) (meta : MetaVal)
    (fsErr : Option (Option String)) (downloadId : Nat) :
    (ytDlpCloseUpdate platformName stderr code files token now mtime fsize
        infoTitle meta fsErr downloadId).platform = none ∧
      (ytDlpCloseUpdate platformName stderr code files token now mtime fsize
        infoTitle meta fsErr downloadId).format = none ∧
      (ytDlpCloseUpdate platformName stderr code files token now mtime fsize
        infoTitle meta fsErr downloadId).quality = none := by
  unfold ytDlpCloseUpdate
  cases hsc : stderrClassify platformName stderr with
  | some v =>
      obtain ⟨m, rfl, -⟩ := stderrClassify_shape hsc
      exact ⟨rfl, rfl, rfl⟩
  | none =>
      by_cases hc : code = some 0
      · rw [if_pos hc]
        cases fsErr with
        | none => cases locate files token now mtime <;> exact ⟨rfl, rfl, rfl⟩
        | some e => exact ⟨rfl, rfl, rfl⟩
      · rw [if_neg hc]
        exact ⟨rfl, rfl, rfl⟩

/-- C8 amended: `id`, `url` and `createdAt` cannot change through any
accepted update (the patch type omits them); `platform`, `format` and
`quality` are not protected by the store — a patch may overwrite them — but
they are unchanged whenever the patch leaves them out, and no update the
orchestration core ever issues sets any of them, so along every core code
path they stay at their creation values. -/
theorem C8_amended_immutable_fields :
    (∀ d u, (applyUpdate d u).id = d.id ∧ (applyUpdate d u).url = d.url ∧
        (applyUpdate d u).createdAt = d.createdAt) ∧
    (∀ d u, u.platform = none → u.format = none → u.quality = none →
        (applyUpdate d u).platform = d.platform ∧
        (applyUpdate d u).format = d.format ∧
        (applyUpdate d u).quality = d.quality) ∧
    (∀ tr, JobTrace tr → ∀ u ∈ tr,
        u.platform = none ∧ u.format = none ∧ u.quality = none) := by
  refine ⟨fun d u => ⟨rfl, rfl, rfl⟩, ?_, ?_⟩
  · intro d u h1 h2 h3
    exact ⟨by simp [applyUpdate, h1], by simp [applyUpdate, h2], by simp [applyUpdate, h3]⟩
  · intro tr htr u hu
    cases htr with
    | direct downloadId url fname res =>
        rw [List.mem_singleton] at hu
        subst hu
        cases res <;> exact ⟨rfl, rfl, rfl⟩
    | instaClose k stderr code files token fsize infoTitle meta fsErr downloadId =>
        rcases List.mem_append.mp hu with h | h
        · have := igQueueUpdates_status k u h
          cases k with
          | none =>
              rw [show igQueueUpdates none = [igClearPatch] from rfl,
                List.mem_singleton] at h
              subst h; exact ⟨rfl, rfl, rfl⟩
          | some n =>
              simp only [igQueueUpdates, List.mem_cons, List.mem_singleton,
                List.not_mem_nil, or_false] at h
              rcases h with h | h <;> (subst h; exact ⟨rfl, rfl, rfl⟩)
        · rw [List.mem_singleton] at h
          subst h
          exact igCloseUpdate_frame stderr code files token fsize infoTitle meta
            fsErr downloadId
    | instaCatch k =>
        rcases List.mem_append.mp hu with h | h
        · cases k with
          | none =>
              rw [show igQueueUpdates none = [igClearPatch] from rfl,
                List.mem_singleton] at h
              subst h; exact ⟨rfl, rfl, rfl⟩
          | some n =>
              simp only [igQueueUpdates, List.mem_cons, List.mem_singleton,
                List.not_mem_nil, or_false] at h
              rcases h with h | h <;> (subst h; exact ⟨rfl, rfl, rfl⟩)
        · rw [List.mem_singleton] at h
          subst h; exact ⟨rfl, rfl, rfl⟩
    | ytClose platformName stderr code files token now mtime fsize infoTitle meta fsErr downloadId =>
        rw [List.mem_singleton] at hu
        subst hu
        exact ytDlpCloseUpdate_frame platformName stderr code files token now mtime
          fsize infoTitle meta fsErr downloadId
    | ytSpawnError emsg =>
        rw [List.mem_singleton] at hu
        subst hu; exact ⟨rfl, rfl, rfl⟩
    | ytCatch emsg =>
        rw [List.mem_singleton] at hu
        subst hu; exact ⟨rfl, rfl, rfl⟩

theorem C8_amended_immutable_fields_witness :
    (applyUpdate
        (createDownload 3 "https://vimeo.com/99" (some "Vimeo Media") "Vimeo"
          "video" (some "720p") (some "processing") 1700000000000)
        (failedPatch "Download completed but no file was found")).id = 3 ∧
      (applyUpdate
        (createDownload 3 "https://vimeo.com/99" (some "Vimeo Media") "Vimeo"
          "video" (some "720p") (some "processing") 1700000000000)
        (failedPatch "Download completed but no file was found")).platform = "Vimeo" :=
  ⟨(C8_amended_immutable_fields.1 _ _).1,
    (C8_amended_immutable_fields.2.1 _ (failedPatch "Download completed but no file was found")
      rfl rfl rfl).1⟩

theorem runQueue_map_item (ids : List Nat) : ∀ (lastT now : Nat) (drifts : List Nat),
    (runQueue ids lastT now drifts).map (fun r => r.item) = ids := by
  induction ids with
  | nil => intro lastT now drifts; rfl
  | cons id rest ih =>
      intro lastT now drifts
      simp only [runQueue]
      split_ifs with h
      · simp only [List.map_cons, ih]
      · simp only [List.map_cons, ih]

theorem runQueue_head_time (id : Nat) (rest : List Nat) (lastT now : Nat)
    (drifts : List Nat) (hle : lastT ≤ now) :
    ∀ r ∈ (runQueue (id :: rest) lastT now drifts).head?,
      now ≤ r.time ∧ (0 < lastT → lastT + igMinDelay ≤ r.time) := by
  simp only [runQueue]
  split_ifs with h <;>
    (intro r hr
     simp only [List.head?_cons, Option.mem_def, Option.some.injEq] at hr
     subst hr
     dsimp only
     constructor)
  · omega
  · intro hl; omega
  · omega
  · intro hl; omega

theorem runQueue_chain (ids : List Nat) : ∀ (lastT now : Nat) (drifts : List Nat),
    lastT ≤ now → 0 < now →
    List.Chain' (fun a b => a.time + igMinDelay ≤ b.time)
      (runQueue ids lastT now drifts) := by
  induction ids with
  | nil => intro lastT now drifts _ _; simp [runQueue]
  | cons id rest ih =>
      intro lastT now drifts hle hnow
      simp only [runQueue]
      split_ifs with h
      · rw [List.chain'_cons']
        constructor
        · intro b hb
          cases rest with
          | nil => simp [runQueue] at hb
          | cons id2 rest2 =>
              have hr := runQueue_head_time id2 rest2 _ _ drifts.tail (by omega) b hb
              dsimp only
              have := hr.2 (by omega)
              omega
        · exact ih _ _ drifts.tail (by omega) (by omega)
      · rw [List.chain'_cons']
        constructor
        · intro b hb
          cases rest with
          | nil => simp [runQueue] at hb
          | cons id2 rest2 =>
              have hr := runQueue_head_time id2 rest2 _ _ drifts.tail (by omega) b hb
              dsimp only
              have := hr.2 (by omega)
              omega
        · exact ih _ _ drifts.tail (by omega) (by omega)

theorem runQueue_updates_shape (ids : List Nat) : ∀ (lastT now : Nat) (drifts : List Nat),
    ∀ r ∈ runQueue ids lastT now drifts,
      (∀ u ∈ r.updates, u.status = some "processing") ∧
        r.updates.getLast? = some igClearPatch ∧
        (r.waited = false → r.updates = [igClearPatch]) := by
  induction ids with
  | nil => intro lastT now drifts r hr; simp [runQueue] at hr
  | cons id rest ih =>
      intro lastT now drifts r hr
      simp only [runQueue] at hr
      split_ifs at hr with h
      · rcases List.mem_cons.mp hr with hr | hr
        · subst hr
          refine ⟨?_, rfl, by intro hw; simp at hw⟩
          intro u hu
          simp only [List.mem_cons, List.mem_singleton, List.not_mem_nil,
            or_false] at hu
          rcases hu with hu | hu <;> (subst hu; rfl)
        · exact ih _ _ drifts.tail r hr
      · rcases List.mem_cons.mp hr with hr | hr
        · subst hr
          refine ⟨?_, rfl, fun _ => rfl⟩
          intro u hu
          simp only [List.mem_singleton] at hu
          subst hu; rfl
        · exact ih _ _ drifts.tail r hr

/-- C4: the Instagram queue releases jobs in strict FIFO order; consecutive
dispatch times are at least `minDelay` (60 s) apart (stated as the pairwise
bound over the whole dispatch list); with no dispatch ever recorded
(`lastDispatchTime = 0`) the first job is released without waiting; every
record update the worker issues before a release keeps status `processing`
and ends with the message-clearing update; and a call to the worker while
one is already running performs no dispatches. -/
theorem C4_instagram_queue_discipline (ids : List Nat) (lastT now : Nat)
    (drifts : List Nat) (hle : lastT ≤ now) (hnow : 0 < now) :
    ((runQueue ids lastT now drifts).map (fun r => r.item) = ids) ∧
      List.Pairwise (fun a b => a.time + igMinDelay ≤ b.time)
        (runQueue ids lastT now drifts) ∧
      (∀ id rest, ids = id :: rest →
        ((runQueue ids 0 now drifts).head?.map (fun r => r.waited)) = some false) ∧
      (∀ r ∈ runQueue ids lastT now drifts,
        (∀ u ∈ r.updates, u.status = some "processing") ∧
          r.updates.getLast? = some igClearPatch ∧
          (r.waited = false → r.updates = [igClearPatch])) ∧
      (∀ queue lastT2 now2 drifts2,
        processInstagramQueueEntry true queue lastT2 now2 drifts2 = []) := by
  refine ⟨runQueue_map_item ids lastT now drifts, ?_, ?_, runQueue_updates_shape ids lastT now drifts, ?_⟩
  · have := runQueue_chain ids lastT now drifts hle hnow
    exact (@List.chain'_iff_pairwise _ _
      ⟨fun a b c hab hbc => by omega⟩ _).mp this
  · intro id rest hids
    subst hids
    simp only [runQueue]
    split_ifs with h
    · omega
    · rfl
  · intro queue lastT2 now2 drifts2
    simp [processInstagramQueueEntry]

theorem C4_instagram_queue_discipline_witness :
    ((runQueue [10, 11] 0 1 []).map (fun r => r.item) = [10, 11]) ∧
      List.Pairwise (fun a b => a.time + igMinDelay ≤ b.time) (runQueue [10, 11] 0 1 []) ∧
      (∀ id rest, [10, 11] = id :: rest →
        ((runQueue [10, 11] 0 1 []).head?.map (fun r => r.waited)) = some false) ∧
      (∀ r ∈ runQueue [10, 11] 0 1 [],
        (∀ u ∈ r.updates, u.status = some "processing") ∧
          r.updates.getLast? = some igClearPatch ∧
          (r.waited = false → r.updates = [igClearPatch])) ∧
      (∀ queue lastT2 now2 drifts2,
        processInstagramQueueEntry true queue lastT2 now2 drifts2 = []) :=
  C4_instagram_queue_discipline [10, 11] 0 1 [] (by omega) (by omega)

end MediaDL
